import Mathlib

/-!
Verification of rtsp-simple-server: `newProgram` and `program.forwardTrack`.

A shallow embedding of `main.go`.

* Go `string` values are Lean `String`s (valid UTF-8 text); `[]byte` is `List Nat`.
* Go `int` and the `int`-based enumerations (`trackFlow`, `streamProtocol`) are `Int`;
  the enumeration constants are the `iota` values `0` and `1`.
* `map[K]struct{}` is a finite set; a set of `*client` pointers is the list of the
  pointed-to clients in the order in which `range` visits them (any order is possible,
  the theorems hold for every list).
* `error` values built by `fmt.Errorf` are their message.
* Logging (`log.Printf`) and the mutex are not modelled.
-/

set_option autoImplicit false

/-! ## Enumerations and value types (main.go lines 17-41) -/

/-- Go `type trackFlow int`. -/
abbrev trackFlow := Int

/-- First `iota` constant of `trackFlow`. -/
def _TRACK_FLOW_RTP : trackFlow := 0

/-- Second `iota` constant of `trackFlow`. -/
def _TRACK_FLOW_RTCP : trackFlow := 1

/-- Go `type track struct`. -/
structure track where
  rtpPort : Int
  rtcpPort : Int
  deriving DecidableEq, Repr

/-- Go `type streamProtocol int`. -/
abbrev streamProtocol := Int

/-- First `iota` constant of the protocol block. -/
def _STREAM_PROTOCOL_UDP : streamProtocol := 0

/-- Second `iota` constant of the protocol block. -/
def _STREAM_PROTOCOL_TCP : streamProtocol := 1

/-- Go `func (s streamProtocol) String() string`. -/
def streamProtocol.String (s : streamProtocol) : String :=
  if s = _STREAM_PROTOCOL_UDP then "udp" else "tcp"

/-! ## Library functions used by `newProgram` -/

/-- Splitting of a character sequence at every occurrence of `sep`: the pieces between
the separators, one more piece than there are separators. -/
def strings.splitChars (sep : Char) : List Char → List (List Char)
  | [] => [[]]
  | c :: cs =>
    if c = sep then [] :: strings.splitChars sep cs
    else
      match strings.splitChars sep cs with
      | [] => [[c]]
      | t :: ts => (c :: t) :: ts

/-- Go `strings.Split(s, sep)` for a one-character separator such as `","`. -/
def strings.Split (s : String) (sep : Char) : List String :=
  (strings.splitChars sep s.data).map String.mk

/-- The character class `[a-zA-Z0-9]`. -/
def alnumClass (c : Char) : Bool :=
  (decide ('a' ≤ c) && decide (c ≤ 'z')) ||
  (decide ('A' ≤ c) && decide (c ≤ 'Z')) ||
  (decide ('0' ≤ c) && decide (c ≤ '9'))

/-- The tail `[a-zA-Z0-9]+$` of the pattern, tried at the current position: one class
character, then either the end of the text or the same again. Without the `m` flag
`$` matches at the end of the text only. -/
def matchClassPlusEnd : List Char → Bool
  | [] => false
  | c :: cs => alnumClass c && (cs.isEmpty || matchClassPlusEnd cs)

/-- Go `regexp.MustCompile("^[a-zA-Z0-9]+$").MatchString(s)`: `^` admits a match at
offset 0 only, so the search is the single attempt from the start of `s`. -/
def publishKeyRegexp.MatchString (s : String) : Bool :=
  matchClassPlusEnd s.data

/-! ## Sessions -/

/-- Modelled from the spec: the session states, declared with the `client` type outside
main.go. The spec's state machine has these six states. -/
inductive clientState where
  | INIT
  | READY_PUBLISH
  | READY_PLAY
  | PUBLISHING
  | PLAYING
  | CLOSED
  deriving DecidableEq, Repr

/-- Modelled from the spec: the constant `_CLIENT_STATE_PLAY` that main.go compares
`c.state` with is declared outside main.go; it is the spec's PLAYING state. -/
def _CLIENT_STATE_PLAY : clientState := clientState.PLAYING

/-- Modelled from the spec: which states belong to the Publisher role. -/
def clientState.isPublisher : clientState → Bool
  | clientState.READY_PUBLISH => true
  | clientState.PUBLISHING => true
  | _ => false

/-- Modelled from the spec: the `client` struct is declared outside main.go; these are
the fields main.go reads. `ptr` is the identity of the `*client` pointer, which is also
the owner of the control connection `c.rconn`. -/
structure client where
  ptr : Nat
  path : String
  state : clientState
  streamProtocol : streamProtocol
  ip : List Nat
  streamTracks : List track
  deriving DecidableEq, Repr

/-- Modelled from the spec: the datagram listener type is declared outside main.go; one
instance per flow, bound to the configured port. -/
structure rtspUdpListener where
  port : Int
  flow : trackFlow
  deriving DecidableEq, Repr

/-- Modelled from the spec: the control listener type is declared outside main.go. -/
structure rtspTcpListener where
  port : Int
  deriving DecidableEq, Repr

/-! ## The program (main.go lines 43-111) -/

/-- Go `type program struct`. A `nil` listener pointer is `none`; `publishers` maps a
path to the identity of its publisher. -/
structure program where
  protocols : Finset streamProtocol
  rtspPort : Int
  rtpPort : Int
  rtcpPort : Int
  publishKey : String
  rtspl : Option rtspTcpListener
  rtpl : Option rtspUdpListener
  rtcpl : Option rtspUdpListener
  clients : List client
  publishers : List (String × Nat)
  deriving DecidableEq

/-- The listener constructors that `newProgram` calls. They are declared outside
main.go and open sockets, so their results are parameters of the model. -/
structure listenerEnv where
  newRtspUdpListener : program → Int → trackFlow → Except String rtspUdpListener
  newRtspTcpListener : program → Except String rtspTcpListener

/-- Lines 59-70 of `newProgram`: the loop over the tokens of the protocol string. -/
def newProgram.parseLoop :
    List String → Finset streamProtocol → Except String (Finset streamProtocol)
  | [], protocols => Except.ok protocols
  | proto :: rest, protocols =>
    if proto = "udp" then
      newProgram.parseLoop rest (insert _STREAM_PROTOCOL_UDP protocols)
    else if proto = "tcp" then
      newProgram.parseLoop rest (insert _STREAM_PROTOCOL_TCP protocols)
    else
      Except.error ("unsupported protocol: " ++ proto)

/-- Lines 58-91 of `newProgram`: validation of the configuration and construction of
the program value, before any listener is opened. -/
def newProgram.validate (protocolsStr : String) (rtspPort rtpPort rtcpPort : Int)
    (publishKey : String) : Except String program :=
  match newProgram.parseLoop (strings.Split protocolsStr ',') ∅ with
  | Except.error e => Except.error e
  | Except.ok protocols =>
    if protocols.card = 0 then
      Except.error "no protocols supplied"
    else if publishKey ≠ "" ∧ ¬ publishKeyRegexp.MatchString publishKey = true then
      Except.error "publish key must be alphanumeric"
    else
      Except.ok {
        protocols := protocols
        rtspPort := rtspPort
        rtpPort := rtpPort
        rtcpPort := rtcpPort
        publishKey := publishKey
        rtspl := none
        rtpl := none
        rtcpl := none
        clients := []
        publishers := [] }

/-- Go `func newProgram`: validation, then the three listeners (lines 93-110). -/
def newProgram (env : listenerEnv) (protocolsStr : String) (rtspPort rtpPort rtcpPort : Int)
    (publishKey : String) : Except String program :=
  match newProgram.validate protocolsStr rtspPort rtpPort rtcpPort publishKey with
  | Except.error e => Except.error e
  | Except.ok p =>
    match env.newRtspUdpListener p rtpPort _TRACK_FLOW_RTP with
    | Except.error e => Except.error e
    | Except.ok rtpl =>
      let p1 := { p with rtpl := some rtpl }
      match env.newRtspUdpListener p1 rtcpPort _TRACK_FLOW_RTCP with
      | Except.error e => Except.error e
      | Except.ok rtcpl =>
        let p2 := { p1 with rtcpl := some rtcpl }
        match env.newRtspTcpListener p2 with
        | Except.error e => Except.error e
        | Except.ok rtspl => Except.ok { p2 with rtspl := some rtspl }

/-- A listener environment in which every socket can be opened. -/
def listenerEnv.allOk : listenerEnv where
  newRtspUdpListener := fun _ port flow => Except.ok { port := port, flow := flow }
  newRtspTcpListener := fun p => Except.ok { port := p.rtspPort }

/-- A token that the `switch` of `newProgram` sends to its `default` branch. -/
def unsupportedToken (tok : String) : Bool :=
  decide (tok ≠ "udp" ∧ tok ≠ "tcp")

/-- The validated configuration for a set of protocols, the default ports and no key. -/
def defaultConfig (protocols : Finset streamProtocol) : program :=
  { protocols := protocols, rtspPort := 8554, rtpPort := 8000, rtcpPort := 8001,
    publishKey := "", rtspl := none, rtpl := none, rtcpl := none, clients := [],
    publishers := [] }

/-! ## Forwarding (main.go lines 122-143) -/

/-- Modelled from the spec: `trackToInterleavedChannel` is declared outside main.go. The
spec: channel id = `2 × trackIndex + (0 if flow == Primary else 1)`, taken over the
integers. -/
def trackToInterleavedChannel (id : Int) (flow : trackFlow) : Int :=
  2 * id + (if flow = _TRACK_FLOW_RTP then 0 else 1)

/-- Modelled from the spec: the inverse of the channel-id formula, used by the receiving
side and declared outside main.go: track index `channel / 2`, flow `channel mod 2`, with
Go's division and remainder, which truncate toward zero. -/
def interleavedChannelToTrack (channel : Int) : Int × trackFlow :=
  (Int.tdiv channel 2, Int.tmod channel 2)

/-- The two datagram sockets `p.rtpl.nconn` and `p.rtcpl.nconn`. -/
inductive udpSocket where
  | rtpl
  | rtcpl
  deriving DecidableEq, Repr

/-- An egress call made by `forwardTrack`: `nconn.WriteTo(frame, &net.UDPAddr{IP, Port})`
on one of the two datagram sockets, or `rconn.WriteInterleavedFrame(channel, frame)` on
the control connection of the client `conn`. -/
inductive egressCall where
  | WriteTo (sock : udpSocket) (frame : List Nat) (ip : List Nat) (port : Int)
  | WriteInterleavedFrame (conn : Nat) (channel : Int) (frame : List Nat)
  deriving DecidableEq, Repr

/-- A performed egress call: the client the loop was serving, the call, and whether the
call returned without an error. -/
structure delivery where
  dst : Nat
  call : egressCall
  ok : Bool
  deriving DecidableEq, Repr

/-- The state threaded through `forwardTrack`: the program and the egress calls made so
far, oldest first. -/
structure forwardState where
  prog : program
  log : List delivery

/-- How a call of `forwardTrack` ends: it returns, or the index expression
`c.streamTracks[id]` panics with "index out of range", or the selector `p.rtpl.nconn`
(`p.rtcpl.nconn`) panics on a `nil` listener pointer. -/
inductive forwardResult where
  | returned (st : forwardState)
  | indexOutOfRange (st : forwardState)
  | nilPointer (st : forwardState)

/-- The state in which the call ended. -/
def forwardResult.state : forwardResult → forwardState
  | forwardResult.returned st => st
  | forwardResult.indexOutOfRange st => st
  | forwardResult.nilPointer st => st

/-- Whether the call returned to its caller. -/
def forwardResult.isReturned : forwardResult → Bool
  | forwardResult.returned _ => true
  | forwardResult.indexOutOfRange _ => false
  | forwardResult.nilPointer _ => false

/-- Go slice indexing `tracks[id]` with an `int` index: `none` is the run-time panic. -/
def sliceIndex (tracks : List track) (id : Int) : Option track :=
  if 0 ≤ id then tracks[id.toNat]? else none

/-- One egress call is made; `outcome n` tells whether the `n`-th call of this run
succeeds. The returned error is discarded by `forwardTrack`, the log keeps it. -/
def forwardState.perform (st : forwardState) (outcome : Nat → Bool) (dst : Nat)
    (call : egressCall) : forwardState :=
  { st with log := st.log ++ [{ dst := dst, call := call, ok := outcome st.log.length }] }

/-- The `for c := range p.clients` loop of `forwardTrack`, over the clients still to be
visited. In `p.rtpl.nconn.WriteTo(frame, &net.UDPAddr{...})` the receiver `p.rtpl.nconn`
is read through the listener pointer before the address is built, so a `nil` listener
panics before the track list is indexed. -/
def forwardTrack.loop (path : String) (id : Int) (flow : trackFlow) (frame : List Nat)
    (outcome : Nat → Bool) : List client → forwardState → forwardResult
  | [], st => forwardResult.returned st
  | c :: rest, st =>
    if c.path = path ∧ c.state = _CLIENT_STATE_PLAY then
      if c.streamProtocol = _STREAM_PROTOCOL_UDP then
        if flow = _TRACK_FLOW_RTP then
          match st.prog.rtpl with
          | none => forwardResult.nilPointer st
          | some _ =>
            match sliceIndex c.streamTracks id with
            | none => forwardResult.indexOutOfRange st
            | some t =>
              forwardTrack.loop path id flow frame outcome rest
                (st.perform outcome c.ptr
                  (egressCall.WriteTo udpSocket.rtpl frame c.ip t.rtpPort))
        else
          match st.prog.rtcpl with
          | none => forwardResult.nilPointer st
          | some _ =>
            match sliceIndex c.streamTracks id with
            | none => forwardResult.indexOutOfRange st
            | some t =>
              forwardTrack.loop path id flow frame outcome rest
                (st.perform outcome c.ptr
                  (egressCall.WriteTo udpSocket.rtcpl frame c.ip t.rtcpPort))
      else
        forwardTrack.loop path id flow frame outcome rest
          (st.perform outcome c.ptr
            (egressCall.WriteInterleavedFrame c.ptr (trackToInterleavedChannel id flow) frame))
    else
      forwardTrack.loop path id flow frame outcome rest st

/-- Go `func (p *program) forwardTrack(path string, id int, flow trackFlow, frame []byte)`. -/
def program.forwardTrack (p : program) (path : String) (id : Int) (flow : trackFlow)
    (frame : List Nat) (outcome : Nat → Bool) : forwardResult :=
  forwardTrack.loop path id flow frame outcome p.clients { prog := p, log := [] }

/-- The ways in which the loop can end. -/
inductive forwardEnd where
  | returned
  | indexOutOfRange
  | nilPointer
  deriving DecidableEq, Repr

/-- The result with the given ending and final state. -/
def forwardEnd.result : forwardEnd → forwardState → forwardResult
  | forwardEnd.returned, st => forwardResult.returned st
  | forwardEnd.indexOutOfRange, st => forwardResult.indexOutOfRange st
  | forwardEnd.nilPointer, st => forwardResult.nilPointer st

/-- The egress call that the loop body makes for an eligible client, or the panic in
which the body ends. -/
def forwardTrack.callFor (p : program) (id : Int) (flow : trackFlow) (frame : List Nat)
    (c : client) : Except forwardEnd egressCall :=
  if c.streamProtocol = _STREAM_PROTOCOL_UDP then
    if flow = _TRACK_FLOW_RTP then
      match p.rtpl with
      | none => Except.error forwardEnd.nilPointer
      | some _ =>
        match sliceIndex c.streamTracks id with
        | none => Except.error forwardEnd.indexOutOfRange
        | some t => Except.ok (egressCall.WriteTo udpSocket.rtpl frame c.ip t.rtpPort)
    else
      match p.rtcpl with
      | none => Except.error forwardEnd.nilPointer
      | some _ =>
        match sliceIndex c.streamTracks id with
        | none => Except.error forwardEnd.indexOutOfRange
        | some t => Except.ok (egressCall.WriteTo udpSocket.rtcpl frame c.ip t.rtcpPort)
  else
    Except.ok (egressCall.WriteInterleavedFrame c.ptr (trackToInterleavedChannel id flow) frame)

/-- The calls that the loop makes over a list of clients, in order, and how it ends. -/
def forwardTrack.plan (p : program) (path : String) (id : Int) (flow : trackFlow)
    (frame : List Nat) : List client → List (Nat × egressCall) × forwardEnd
  | [] => ([], forwardEnd.returned)
  | c :: rest =>
    if c.path = path ∧ c.state = _CLIENT_STATE_PLAY then
      match forwardTrack.callFor p id flow frame c with
      | Except.error e => ([], e)
      | Except.ok call =>
        ((c.ptr, call) :: (forwardTrack.plan p path id flow frame rest).1,
          (forwardTrack.plan p path id flow frame rest).2)
    else forwardTrack.plan p path id flow frame rest

/-- The log entries for a list of calls of which the first is the `n`-th of the run. -/
def stamp (outcome : Nat → Bool) : Nat → List (Nat × egressCall) → List delivery
  | _, [] => []
  | n, x :: xs => { dst := x.1, call := x.2, ok := outcome n } :: stamp outcome (n + 1) xs

/-- A running registry with the given live sessions: the default configuration with its
three listeners open, as `newProgram` returns it. -/
def registryWith (clients : List client) : program :=
  { defaultConfig {_STREAM_PROTOCOL_UDP, _STREAM_PROTOCOL_TCP} with
    rtspl := some { port := 8554 }
    rtpl := some { port := 8000, flow := _TRACK_FLOW_RTP }
    rtcpl := some { port := 8001, flow := _TRACK_FLOW_RTCP }
    clients := clients }

/-- A player on "cam1" in the playing state over TCP, with no datagram tracks. -/
def tcpPlayer : client :=
  { ptr := 2, path := "cam1", state := clientState.PLAYING,
    streamProtocol := _STREAM_PROTOCOL_TCP, ip := [10, 0, 0, 2], streamTracks := [] }

/-- The publisher of "cam1", recording over TCP. -/
def tcpPublisher : client :=
  { ptr := 1, path := "cam1", state := clientState.PUBLISHING,
    streamProtocol := _STREAM_PROTOCOL_TCP, ip := [10, 0, 0, 1], streamTracks := [] }

/-- A player on "cam1" in the playing state over UDP that has set up one track. -/
def udpPlayer : client :=
  { ptr := 3, path := "cam1", state := clientState.PLAYING,
    streamProtocol := _STREAM_PROTOCOL_UDP, ip := [10, 0, 0, 3],
    streamTracks := [{ rtpPort := 5000, rtcpPort := 5001 }] }

/-- The eligibility test of the loop body: same path, playing state. -/
def forwardTrack.eligible (path : String) (c : client) : Bool :=
  decide (c.path = path ∧ c.state = _CLIENT_STATE_PLAY)

/-! ## Lemmas on the library functions -/

theorem strings.splitChars_ne_nil (sep : Char) (l : List Char) :
    strings.splitChars sep l ≠ [] := by
  induction l with
  | nil => simp [strings.splitChars]
  | cons c cs ih =>
    unfold strings.splitChars
    split
    · simp
    · split <;> simp

theorem strings.Split_ne_nil (s : String) (sep : Char) : strings.Split s sep ≠ [] := by
  simp [strings.Split, strings.splitChars_ne_nil]

theorem matchClassPlusEnd_iff (l : List Char) :
    matchClassPlusEnd l = true ↔ l ≠ [] ∧ ∀ c ∈ l, alnumClass c = true := by
  induction l with
  | nil => simp [matchClassPlusEnd]
  | cons c cs ih =>
    cases cs with
    | nil => simp [matchClassPlusEnd]
    | cons d ds =>
      unfold matchClassPlusEnd
      simp only [Bool.and_eq_true, Bool.or_eq_true, ih]
      simp

theorem string_eq_empty_iff (s : String) : s = "" ↔ s.data = [] := by
  constructor
  · intro h; subst h; rfl
  · intro h; cases s; simp_all

theorem publishKeyRegexp.MatchString_iff (s : String) :
    publishKeyRegexp.MatchString s = true ↔ s ≠ "" ∧ ∀ c ∈ s.data, alnumClass c = true := by
  simp [publishKeyRegexp.MatchString, matchClassPlusEnd_iff, string_eq_empty_iff]

/-! ## Lemmas on the protocol loop -/

theorem newProgram.parseLoop_error (toks : List String) (acc : Finset streamProtocol)
    (tok : String) (h : toks.find? unsupportedToken = some tok) :
    newProgram.parseLoop toks acc = Except.error ("unsupported protocol: " ++ tok) := by
  induction toks generalizing acc with
  | nil => simp at h
  | cons t ts ih =>
    unfold newProgram.parseLoop
    by_cases h1 : t = "udp"
    · subst h1
      have : unsupportedToken "udp" = false := by simp [unsupportedToken]
      rw [List.find?_cons, this] at h
      simpa using ih _ h
    · by_cases h2 : t = "tcp"
      · subst h2
        have : unsupportedToken "tcp" = false := by simp [unsupportedToken]
        rw [List.find?_cons, this] at h
        simpa using ih _ h
      · have : unsupportedToken t = true := by simp [unsupportedToken, h1, h2]
        rw [List.find?_cons, this] at h
        simp only [Option.some.injEq] at h
        subst h
        simp [h1, h2]

theorem newProgram.parseLoop_ok (toks : List String) (acc : Finset streamProtocol)
    (h : ∀ tok ∈ toks, tok = "udp" ∨ tok = "tcp") :
    ∃ s, newProgram.parseLoop toks acc = Except.ok s ∧
      ∀ x, x ∈ s ↔ x ∈ acc ∨ (x = _STREAM_PROTOCOL_UDP ∧ "udp" ∈ toks) ∨
        (x = _STREAM_PROTOCOL_TCP ∧ "tcp" ∈ toks) := by
  induction toks generalizing acc with
  | nil => exact ⟨acc, rfl, by simp⟩
  | cons t ts ih =>
    have hts : ∀ tok ∈ ts, tok = "udp" ∨ tok = "tcp" :=
      fun tok htok => h tok (List.mem_cons_of_mem _ htok)
    unfold newProgram.parseLoop
    rcases h t (List.mem_cons_self _ _) with h1 | h1
    · subst h1
      obtain ⟨s, hs, hmem⟩ := ih (insert _STREAM_PROTOCOL_UDP acc) hts
      refine ⟨s, by simpa using hs, fun x => ?_⟩
      rw [hmem x]
      simp only [Finset.mem_insert, List.mem_cons]
      have : ¬ ("tcp" = "udp") := by decide
      tauto
    · subst h1
      obtain ⟨s, hs, hmem⟩ := ih (insert _STREAM_PROTOCOL_TCP acc) hts
      have hne : ¬ ("tcp" = "udp") := by decide
      refine ⟨s, by simpa [hne] using hs, fun x => ?_⟩
      rw [hmem x]
      simp only [Finset.mem_insert, List.mem_cons]
      have : ¬ ("udp" = "tcp") := by decide
      tauto

theorem unsupported_find_of_exists (toks : List String)
    (h : ∃ tok ∈ toks, tok ≠ "udp" ∧ tok ≠ "tcp") :
    ∃ tok, toks.find? unsupportedToken = some tok := by
  obtain ⟨tok, hmem, hne⟩ := h
  cases hf : toks.find? unsupportedToken with
  | some t => exact ⟨t, rfl⟩
  | none =>
    rw [List.find?_eq_none] at hf
    have := hf tok hmem
    simp [unsupportedToken, hne.1, hne.2] at this

theorem unsupported_find_none (toks : List String)
    (h : toks.find? unsupportedToken = none) :
    ∀ tok ∈ toks, tok = "udp" ∨ tok = "tcp" := by
  intro tok hmem
  rw [List.find?_eq_none] at h
  have := h tok hmem
  simp only [unsupportedToken, decide_eq_true_eq, not_and, not_not] at this
  by_cases h1 : tok = "udp"
  · exact Or.inl h1
  · exact Or.inr (this h1)

/-! ## `newProgram`: configuration errors -/

theorem newProgram.validate_of_parse_error (protocolsStr : String)
    (rtspPort rtpPort rtcpPort : Int) (publishKey e : String)
    (h : newProgram.parseLoop (strings.Split protocolsStr ',') ∅ = Except.error e) :
    newProgram.validate protocolsStr rtspPort rtpPort rtcpPort publishKey = Except.error e := by
  simp [newProgram.validate, h]

theorem newProgram_of_validate_error (env : listenerEnv) (protocolsStr : String)
    (rtspPort rtpPort rtcpPort : Int) (publishKey e : String)
    (h : newProgram.validate protocolsStr rtspPort rtpPort rtcpPort publishKey = Except.error e) :
    newProgram env protocolsStr rtspPort rtpPort rtcpPort publishKey = Except.error e := by
  simp [newProgram, h]

/-- The program returned by `newProgram` is the validated one with its listeners set. -/
theorem newProgram_ok_validate (env : listenerEnv) (protocolsStr : String)
    (rtspPort rtpPort rtcpPort : Int) (publishKey : String) (p : program)
    (h : newProgram env protocolsStr rtspPort rtpPort rtcpPort publishKey = Except.ok p) :
    ∃ q, newProgram.validate protocolsStr rtspPort rtpPort rtcpPort publishKey = Except.ok q ∧
      p.protocols = q.protocols ∧ p.publishKey = q.publishKey := by
  unfold newProgram at h
  split at h
  · simp at h
  · rename_i q hq
    refine ⟨q, hq, ?_⟩
    split at h
    · simp at h
    · simp only at h
      split at h
      · simp at h
      · split at h
        · simp at h
        · simp only [Except.ok.injEq] at h
          subst h
          simp

/-- What a successful validation returns. -/
theorem newProgram.validate_ok (protocolsStr : String)
    (rtspPort rtpPort rtcpPort : Int) (publishKey : String) (p : program)
    (h : newProgram.validate protocolsStr rtspPort rtpPort rtcpPort publishKey = Except.ok p) :
    newProgram.parseLoop (strings.Split protocolsStr ',') ∅ = Except.ok p.protocols ∧
      p.protocols.card ≠ 0 ∧ p.publishKey = publishKey ∧
      (publishKey = "" ∨ publishKeyRegexp.MatchString publishKey = true) := by
  unfold newProgram.validate at h
  split at h
  · simp at h
  · rename_i s hs
    split at h
    · simp at h
    · rename_i hcard
      split at h
      · simp at h
      · rename_i hkey
        simp only [Except.ok.injEq] at h
        subst h
        refine ⟨hs, hcard, rfl, ?_⟩
        by_cases hk : publishKey = ""
        · exact Or.inl hk
        · right
          by_contra hm
          exact hkey ⟨hk, hm⟩

theorem newProgram.parseLoop_ok_valid (toks : List String) (acc s : Finset streamProtocol)
    (h : newProgram.parseLoop toks acc = Except.ok s) :
    ∀ tok ∈ toks, tok = "udp" ∨ tok = "tcp" := by
  apply unsupported_find_none
  cases hf : toks.find? unsupportedToken with
  | none => rfl
  | some t =>
    rw [newProgram.parseLoop_error toks acc t hf] at h
    simp at h

/-- C1: a protocol string with a token that is neither "udp" nor "tcp" (the empty token
included) makes `newProgram` return the error "unsupported protocol: <token>" for the
first such token in list order, whatever the ports, the publish key and the listeners;
no program is returned. -/
theorem newProgram_unsupported_protocol (env : listenerEnv) (protocolsStr : String)
    (rtspPort rtpPort rtcpPort : Int) (publishKey : String)
    (h : ∃ tok ∈ strings.Split protocolsStr ',', tok ≠ "udp" ∧ tok ≠ "tcp") :
    ∃ tok, (strings.Split protocolsStr ',').find? (fun t => decide (t ≠ "udp" ∧ t ≠ "tcp"))
        = some tok ∧
      newProgram env protocolsStr rtspPort rtpPort rtcpPort publishKey
        = Except.error ("unsupported protocol: " ++ tok) ∧
      ∀ p, newProgram env protocolsStr rtspPort rtpPort rtcpPort publishKey ≠ Except.ok p := by
  obtain ⟨tok, htok⟩ := unsupported_find_of_exists _ h
  have herr := newProgram_of_validate_error env protocolsStr rtspPort rtpPort rtcpPort publishKey _
    (newProgram.validate_of_parse_error protocolsStr rtspPort rtpPort rtcpPort publishKey _
      (newProgram.parseLoop_error _ ∅ tok htok))
  refine ⟨tok, htok, herr, fun p hp => ?_⟩
  rw [herr] at hp
  simp at hp

/-- C1 at "udp,,tcp": the empty token is reported. -/
theorem newProgram_unsupported_protocol_witness :
    (∃ tok ∈ strings.Split "udp,,tcp" ',', tok ≠ "udp" ∧ tok ≠ "tcp") ∧
    ∃ tok, (strings.Split "udp,,tcp" ',').find? (fun t => decide (t ≠ "udp" ∧ t ≠ "tcp"))
        = some tok ∧
      newProgram listenerEnv.allOk "udp,,tcp" 8554 8000 8001 ""
        = Except.error ("unsupported protocol: " ++ tok) ∧
      ∀ p, newProgram listenerEnv.allOk "udp,,tcp" 8554 8000 8001 "" ≠ Except.ok p :=
  have h : ∃ tok ∈ strings.Split "udp,,tcp" ',', tok ≠ "udp" ∧ tok ≠ "tcp" :=
    ⟨"", by decide, by decide, by decide⟩
  ⟨h, newProgram_unsupported_protocol listenerEnv.allOk "udp,,tcp" 8554 8000 8001 "" h⟩

/-- C2: with the empty protocol string `newProgram` returns "unsupported protocol: " (for
the empty token), not "no protocols supplied"; and no input at all makes the validation
return "no protocols supplied". -/
theorem newProgram_empty_protocols_string :
    (∀ (env : listenerEnv) (rtspPort rtpPort rtcpPort : Int) (publishKey : String),
      newProgram env "" rtspPort rtpPort rtcpPort publishKey
        = Except.error "unsupported protocol: ") ∧
    (∀ (protocolsStr : String) (rtspPort rtpPort rtcpPort : Int) (publishKey : String),
      newProgram.validate protocolsStr rtspPort rtpPort rtcpPort publishKey
        ≠ Except.error "no protocols supplied") := by
  constructor
  · intro env rtspPort rtpPort rtcpPort publishKey
    apply newProgram_of_validate_error
    apply newProgram.validate_of_parse_error
    rfl
  · intro protocolsStr rtspPort rtpPort rtcpPort publishKey h
    unfold newProgram.validate at h
    split at h
    · rename_i e he
      simp only [Except.error.injEq] at h
      subst h
      cases hf : (strings.Split protocolsStr ',').find? unsupportedToken with
      | none =>
        obtain ⟨s, hs, -⟩ := newProgram.parseLoop_ok _ ∅ (unsupported_find_none _ hf)
        rw [hs] at he
        simp at he
      | some t =>
        rw [newProgram.parseLoop_error _ ∅ t hf] at he
        simp only [Except.error.injEq] at he
        have := congrArg String.length he
        simp [String.length_append] at this
        have h2 : ("unsupported protocol: ").length = 22 := by decide
        have h3 : ("no protocols supplied").length = 21 := by decide
        omega
    · rename_i s hs
      split at h
      · rename_i hcard
        obtain ⟨s', hs', hmem⟩ := newProgram.parseLoop_ok _ ∅ (newProgram.parseLoop_ok_valid _ _ _ hs)
        rw [hs] at hs'
        simp only [Except.ok.injEq] at hs'
        subst hs'
        rw [Finset.card_eq_zero] at hcard
        have htoks := strings.Split_ne_nil protocolsStr ','
        obtain ⟨t, ht⟩ := List.exists_mem_of_ne_nil _ htoks
        rcases newProgram.parseLoop_ok_valid _ _ _ hs t ht with h1 | h1
        · subst h1
          have := (hmem _STREAM_PROTOCOL_UDP).2 (Or.inr (Or.inl ⟨rfl, ht⟩))
          simp [hcard] at this
        · subst h1
          have := (hmem _STREAM_PROTOCOL_TCP).2 (Or.inr (Or.inr ⟨rfl, ht⟩))
          simp [hcard] at this
      · split at h
        · simp only [Except.error.injEq] at h
          exact absurd h (by decide)
        · simp at h

/-! ## `newProgram`: the publish key and the protocol set -/

theorem newProgram.validate_of_valid (protocolsStr : String)
    (rtspPort rtpPort rtcpPort : Int) (publishKey : String)
    (hvalid : ∀ tok ∈ strings.Split protocolsStr ',', tok = "udp" ∨ tok = "tcp") :
    newProgram.validate protocolsStr rtspPort rtpPort rtcpPort publishKey =
      if publishKey ≠ "" ∧ ¬ publishKeyRegexp.MatchString publishKey = true then
        Except.error "publish key must be alphanumeric"
      else
        (newProgram.parseLoop (strings.Split protocolsStr ',') ∅).map fun protocols =>
          { protocols := protocols, rtspPort := rtspPort, rtpPort := rtpPort,
            rtcpPort := rtcpPort, publishKey := publishKey, rtspl := none, rtpl := none,
            rtcpl := none, clients := [], publishers := [] } := by
  obtain ⟨s, hs, hmem⟩ := newProgram.parseLoop_ok _ ∅ hvalid
  have hcard : s.card ≠ 0 := by
    obtain ⟨t, ht⟩ := List.exists_mem_of_ne_nil _ (strings.Split_ne_nil protocolsStr ',')
    intro h0
    rw [Finset.card_eq_zero] at h0
    rcases hvalid t ht with h1 | h1
    · subst h1
      have := (hmem _STREAM_PROTOCOL_UDP).2 (Or.inr (Or.inl ⟨rfl, ht⟩))
      simp [h0] at this
    · subst h1
      have := (hmem _STREAM_PROTOCOL_TCP).2 (Or.inr (Or.inr ⟨rfl, ht⟩))
      simp [h0] at this
  unfold newProgram.validate
  rw [hs]
  simp only [hcard, if_false]
  split <;> rfl

/-- C3: for a valid protocol string the validation of `newProgram` fails with "publish key
must be alphanumeric" exactly when the key is non-empty and has a character outside
[a-zA-Z0-9] (and then `newProgram` fails so with any listeners); with an empty or purely
alphanumeric key the validation passes and keeps the key; the key of a program returned
by `newProgram` is empty or matches the pattern. -/
theorem newProgram_publishKey_validation (env : listenerEnv) (protocolsStr : String)
    (rtspPort rtpPort rtcpPort : Int) (publishKey : String)
    (hvalid : ∀ tok ∈ strings.Split protocolsStr ',', tok = "udp" ∨ tok = "tcp") :
    (newProgram.validate protocolsStr rtspPort rtpPort rtcpPort publishKey
        = Except.error "publish key must be alphanumeric"
      ↔ publishKey ≠ "" ∧ ∃ c ∈ publishKey.data, alnumClass c = false) ∧
    ((publishKey ≠ "" ∧ ∃ c ∈ publishKey.data, alnumClass c = false) →
      newProgram env protocolsStr rtspPort rtpPort rtcpPort publishKey
        = Except.error "publish key must be alphanumeric") ∧
    ((publishKey = "" ∨ ∀ c ∈ publishKey.data, alnumClass c = true) →
      ∃ p, newProgram.validate protocolsStr rtspPort rtpPort rtcpPort publishKey = Except.ok p ∧
        p.publishKey = publishKey) ∧
    (∀ p, newProgram env protocolsStr rtspPort rtpPort rtcpPort publishKey = Except.ok p →
      p.publishKey = publishKey ∧
      (publishKey = "" ∨
        (publishKey ≠ "" ∧ (∀ c ∈ publishKey.data, alnumClass c = true) ∧
          publishKeyRegexp.MatchString publishKey = true))) := by
  have hv := newProgram.validate_of_valid protocolsStr rtspPort rtpPort rtcpPort publishKey hvalid
  obtain ⟨s, hs, -⟩ := newProgram.parseLoop_ok _ ∅ hvalid
  have hbad : (publishKey ≠ "" ∧ ¬ publishKeyRegexp.MatchString publishKey = true) ↔
      (publishKey ≠ "" ∧ ∃ c ∈ publishKey.data, alnumClass c = false) := by
    rw [publishKeyRegexp.MatchString_iff]
    constructor
    · rintro ⟨h1, h2⟩
      refine ⟨h1, ?_⟩
      by_contra hall
      apply h2
      refine ⟨h1, fun c hc => ?_⟩
      by_contra hcl
      exact hall ⟨c, hc, by simpa using hcl⟩
    · rintro ⟨h1, c, hc, hcl⟩
      refine ⟨h1, fun hall => ?_⟩
      have := hall.2 c hc
      simp [hcl] at this
  have h1 : newProgram.validate protocolsStr rtspPort rtpPort rtcpPort publishKey
        = Except.error "publish key must be alphanumeric"
      ↔ publishKey ≠ "" ∧ ∃ c ∈ publishKey.data, alnumClass c = false := by
    rw [← hbad, hv, hs]
    constructor
    · intro h
      by_contra hn
      rw [if_neg hn] at h
      simp [Except.map] at h
    · intro h
      rw [if_pos h]
  refine ⟨h1, fun h => ?_, fun h => ?_, fun p hp => ?_⟩
  · exact newProgram_of_validate_error env _ _ _ _ _ _ (h1.2 h)
  · have hn : ¬ (publishKey ≠ "" ∧ ¬ publishKeyRegexp.MatchString publishKey = true) := by
      rw [hbad]
      rintro ⟨hne, c, hc, hcl⟩
      rcases h with h | h
      · exact hne h
      · have := h c hc
        simp [hcl] at this
    rw [hv, if_neg hn, hs]
    exact ⟨_, rfl, rfl⟩
  · obtain ⟨q, hq, -, hkey⟩ := newProgram_ok_validate env _ _ _ _ _ p hp
    obtain ⟨-, -, hqk, hm⟩ := newProgram.validate_ok _ _ _ _ _ q hq
    refine ⟨hkey.trans hqk, ?_⟩
    by_cases hk : publishKey = ""
    · exact Or.inl hk
    · right
      rcases hm with hm | hm
      · exact absurd hm hk
      · exact ⟨hk, ((publishKeyRegexp.MatchString_iff _).1 hm).2, hm⟩

/-- C3 at the protocol string "udp": with the key "my key!" and with the key "abc"
followed by a newline, the validation and `newProgram` fail with "publish key must be
alphanumeric"; with the key "abc123" the validation passes. -/
theorem newProgram_publishKey_validation_witness :
    (∀ tok ∈ strings.Split "udp" ',', tok = "udp" ∨ tok = "tcp") ∧
    newProgram.validate "udp" 8554 8000 8001 "my key!"
      = Except.error "publish key must be alphanumeric" ∧
    newProgram listenerEnv.allOk "udp" 8554 8000 8001 "my key!"
      = Except.error "publish key must be alphanumeric" ∧
    newProgram.validate "udp" 8554 8000 8001 "abc\n"
      = Except.error "publish key must be alphanumeric" ∧
    (∃ p, newProgram.validate "udp" 8554 8000 8001 "abc123" = Except.ok p ∧
      p.publishKey = "abc123") :=
  have hvalid : ∀ tok ∈ strings.Split "udp" ',', tok = "udp" ∨ tok = "tcp" := by decide
  have hbad : "my key!" ≠ "" ∧ ∃ c ∈ "my key!".data, alnumClass c = false :=
    ⟨by decide, ' ', by decide, by decide⟩
  have hnl : "abc\n" ≠ "" ∧ ∃ c ∈ "abc\n".data, alnumClass c = false :=
    ⟨by decide, '\n', by decide, by decide⟩
  have h := newProgram_publishKey_validation listenerEnv.allOk "udp" 8554 8000 8001 "my key!" hvalid
  have h2 := newProgram_publishKey_validation listenerEnv.allOk "udp" 8554 8000 8001 "abc\n" hvalid
  have h3 := newProgram_publishKey_validation listenerEnv.allOk "udp" 8554 8000 8001 "abc123" hvalid
  ⟨hvalid, h.1.2 hbad, h.2.1 hbad, h2.1.2 hnl, h3.2.2.1 (Or.inr (by decide))⟩

/-- C8: when the validation of `newProgram` succeeds (or `newProgram` itself returns a
program), the protocol set is non-empty, lies within {UDP, TCP}, contains UDP exactly when
"udp" is a token and TCP exactly when "tcp" is a token, so that it depends on the set of
tokens only, not on their order or multiplicity. -/
theorem newProgram_protocol_set (env : listenerEnv) (protocolsStr : String)
    (rtspPort rtpPort rtcpPort : Int) (publishKey : String) (p : program)
    (hok : newProgram.validate protocolsStr rtspPort rtpPort rtcpPort publishKey = Except.ok p ∨
      newProgram env protocolsStr rtspPort rtpPort rtcpPort publishKey = Except.ok p) :
    p.protocols.Nonempty ∧
    p.protocols ⊆ {_STREAM_PROTOCOL_UDP, _STREAM_PROTOCOL_TCP} ∧
    (_STREAM_PROTOCOL_UDP ∈ p.protocols ↔ "udp" ∈ strings.Split protocolsStr ',') ∧
    (_STREAM_PROTOCOL_TCP ∈ p.protocols ↔ "tcp" ∈ strings.Split protocolsStr ',') ∧
    (∀ sp ∈ p.protocols, streamProtocol.String sp ∈ strings.Split protocolsStr ',') ∧
    (∀ (env2 : listenerEnv) (protocolsStr2 : String) (rtspPort2 rtpPort2 rtcpPort2 : Int)
        (publishKey2 : String) (p2 : program),
      (newProgram.validate protocolsStr2 rtspPort2 rtpPort2 rtcpPort2 publishKey2 = Except.ok p2 ∨
        newProgram env2 protocolsStr2 rtspPort2 rtpPort2 rtcpPort2 publishKey2 = Except.ok p2) →
      (∀ tok, tok ∈ strings.Split protocolsStr2 ',' ↔ tok ∈ strings.Split protocolsStr ',') →
      p2.protocols = p.protocols) := by
  have key : ∀ (env : listenerEnv) (protocolsStr : String) (rtspPort rtpPort rtcpPort : Int)
      (publishKey : String) (p : program),
      (newProgram.validate protocolsStr rtspPort rtpPort rtcpPort publishKey = Except.ok p ∨
        newProgram env protocolsStr rtspPort rtpPort rtcpPort publishKey = Except.ok p) →
      p.protocols.card ≠ 0 ∧
      ∀ x, x ∈ p.protocols ↔ (x = _STREAM_PROTOCOL_UDP ∧ "udp" ∈ strings.Split protocolsStr ',') ∨
        (x = _STREAM_PROTOCOL_TCP ∧ "tcp" ∈ strings.Split protocolsStr ',') := by
    intro env protocolsStr rtspPort rtpPort rtcpPort publishKey p hok
    have hq : ∃ q, newProgram.validate protocolsStr rtspPort rtpPort rtcpPort publishKey
        = Except.ok q ∧ p.protocols = q.protocols := by
      rcases hok with h | h
      · exact ⟨p, h, rfl⟩
      · obtain ⟨q, hq, hp, -⟩ := newProgram_ok_validate env _ _ _ _ _ p h
        exact ⟨q, hq, hp⟩
    obtain ⟨q, hq, hpq⟩ := hq
    obtain ⟨hloop, hcard, -, -⟩ := newProgram.validate_ok _ _ _ _ _ q hq
    obtain ⟨s, hs, hmem⟩ := newProgram.parseLoop_ok _ ∅ (newProgram.parseLoop_ok_valid _ _ _ hloop)
    rw [hloop] at hs
    simp only [Except.ok.injEq] at hs
    rw [hpq, hs]
    rw [hs] at hcard
    exact ⟨hcard, fun x => by simpa using hmem x⟩
  obtain ⟨hcard, hmem⟩ := key env protocolsStr rtspPort rtpPort rtcpPort publishKey p hok
  refine ⟨Finset.card_ne_zero.1 hcard, ?_, ?_, ?_, ?_, ?_⟩
  · intro x hx
    rcases (hmem x).1 hx with ⟨h, -⟩ | ⟨h, -⟩ <;> simp [h]
  · rw [hmem]
    simp [_STREAM_PROTOCOL_UDP, _STREAM_PROTOCOL_TCP]
  · rw [hmem]
    simp [_STREAM_PROTOCOL_UDP, _STREAM_PROTOCOL_TCP]
  · intro sp hsp
    rcases (hmem sp).1 hsp with ⟨h, ht⟩ | ⟨h, ht⟩
    · subst h
      simpa [streamProtocol.String] using ht
    · subst h
      simpa [streamProtocol.String, _STREAM_PROTOCOL_UDP, _STREAM_PROTOCOL_TCP] using ht
  · intro env2 protocolsStr2 rtspPort2 rtpPort2 rtcpPort2 publishKey2 p2 hok2 htoks
    obtain ⟨-, hmem2⟩ := key env2 protocolsStr2 rtspPort2 rtpPort2 rtcpPort2 publishKey2 p2 hok2
    ext x
    rw [hmem x, hmem2 x, htoks, htoks]

/-- C8 at "udp,tcp", "tcp,udp" and "udp,tcp,udp": each validates, and all three give the
set {UDP, TCP}. -/
theorem newProgram_protocol_set_witness :
    ∃ p1 p2 p3,
      newProgram.validate "udp,tcp" 8554 8000 8001 "" = Except.ok p1 ∧
      newProgram.validate "tcp,udp" 8554 8000 8001 "" = Except.ok p2 ∧
      newProgram.validate "udp,tcp,udp" 8554 8000 8001 "" = Except.ok p3 ∧
      p1.protocols = {_STREAM_PROTOCOL_UDP, _STREAM_PROTOCOL_TCP} ∧
      p2.protocols = p1.protocols ∧ p3.protocols = p1.protocols ∧ p1.protocols.Nonempty := by
  have e1 : newProgram.validate "udp,tcp" 8554 8000 8001 ""
      = Except.ok (defaultConfig (insert _STREAM_PROTOCOL_TCP (insert _STREAM_PROTOCOL_UDP ∅))) := by
    rfl
  have e2 : newProgram.validate "tcp,udp" 8554 8000 8001 ""
      = Except.ok (defaultConfig (insert _STREAM_PROTOCOL_UDP (insert _STREAM_PROTOCOL_TCP ∅))) := by
    rfl
  have e3 : newProgram.validate "udp,tcp,udp" 8554 8000 8001 ""
      = Except.ok (defaultConfig (insert _STREAM_PROTOCOL_UDP
          (insert _STREAM_PROTOCOL_TCP (insert _STREAM_PROTOCOL_UDP ∅)))) := by
    rfl
  have h1 := newProgram_protocol_set listenerEnv.allOk "udp,tcp" 8554 8000 8001 "" _ (Or.inl e1)
  refine ⟨_, _, _, e1, e2, e3, ?_, ?_, ?_, h1.1⟩
  · simp [defaultConfig, Finset.pair_comm]
  · exact h1.2.2.2.2.2 listenerEnv.allOk "tcp,udp" 8554 8000 8001 "" _ (Or.inl e2) (by
      intro tok
      have a : strings.Split "tcp,udp" ',' = ["tcp", "udp"] := by decide
      have b : strings.Split "udp,tcp" ',' = ["udp", "tcp"] := by decide
      rw [a, b]
      simp [or_comm])
  · exact h1.2.2.2.2.2 listenerEnv.allOk "udp,tcp,udp" 8554 8000 8001 "" _ (Or.inl e3) (by
      intro tok
      have a : strings.Split "udp,tcp,udp" ',' = ["udp", "tcp", "udp"] := by decide
      have b : strings.Split "udp,tcp" ',' = ["udp", "tcp"] := by decide
      rw [a, b]
      simp
      tauto)

/-! ## Lemmas on the forwarding loop -/

/-- A program returned by `newProgram` has its three listeners set. -/
theorem newProgram_listeners_set (env : listenerEnv) (protocolsStr : String)
    (rtspPort rtpPort rtcpPort : Int) (publishKey : String) (p : program)
    (h : newProgram env protocolsStr rtspPort rtpPort rtcpPort publishKey = Except.ok p) :
    p.rtpl ≠ none ∧ p.rtcpl ≠ none ∧ p.rtspl ≠ none := by
  unfold newProgram at h
  split at h
  · simp at h
  · split at h
    · simp at h
    · simp only at h
      split at h
      · simp at h
      · split at h
        · simp at h
        · simp only [Except.ok.injEq] at h
          subst h
          simp

theorem sliceIndex_isSome (tracks : List track) (id : Int) :
    (sliceIndex tracks id).isSome = true ↔ 0 ≤ id ∧ id < tracks.length := by
  unfold sliceIndex
  split
  · rename_i h
    rw [Option.isSome_iff_exists]
    simp only [List.getElem?_eq_some_iff]
    constructor
    · rintro ⟨t, hlt, -⟩
      exact ⟨h, by omega⟩
    · rintro ⟨-, hlt⟩
      have : id.toNat < tracks.length := by omega
      exact ⟨_, this, rfl⟩
  · rename_i h
    simp [h]

theorem sliceIndex_eq_none (tracks : List track) (id : Int)
    (h : ¬ (0 ≤ id ∧ id < tracks.length)) : sliceIndex tracks id = none := by
  cases hs : sliceIndex tracks id with
  | none => rfl
  | some t =>
    have : (sliceIndex tracks id).isSome = true := by simp [hs]
    exact absurd ((sliceIndex_isSome tracks id).1 this) h

theorem sliceIndex_eq_some (tracks : List track) (id : Int)
    (h : 0 ≤ id ∧ id < tracks.length) : ∃ t, sliceIndex tracks id = some t :=
  Option.isSome_iff_exists.1 ((sliceIndex_isSome tracks id).2 h)

/-- With both datagram listeners set, the loop body makes its call when the index is in
range for a UDP client. -/
theorem forwardTrack.callFor_ok (p : program) (id : Int) (flow : trackFlow) (frame : List Nat)
    (c : client) (hrtpl : p.rtpl ≠ none) (hrtcpl : p.rtcpl ≠ none)
    (h : c.streamProtocol = _STREAM_PROTOCOL_UDP → 0 ≤ id ∧ id < c.streamTracks.length) :
    ∃ call, forwardTrack.callFor p id flow frame c = Except.ok call := by
  unfold forwardTrack.callFor
  by_cases hudp : c.streamProtocol = _STREAM_PROTOCOL_UDP
  · obtain ⟨t, ht⟩ := sliceIndex_eq_some _ _ (h hudp)
    obtain ⟨l1, hl1⟩ := Option.ne_none_iff_exists'.1 hrtpl
    obtain ⟨l2, hl2⟩ := Option.ne_none_iff_exists'.1 hrtcpl
    by_cases hflow : flow = _TRACK_FLOW_RTP
    · exact ⟨egressCall.WriteTo udpSocket.rtpl frame c.ip t.rtpPort,
        by simp [hudp, hflow, hl1, ht]⟩
    · exact ⟨egressCall.WriteTo udpSocket.rtcpl frame c.ip t.rtcpPort,
        by simp [hudp, hflow, hl2, ht]⟩
  · exact ⟨egressCall.WriteInterleavedFrame c.ptr (trackToInterleavedChannel id flow) frame,
      by simp [hudp]⟩

/-- With both datagram listeners set, the loop body panics on the index when it is out of
range for a UDP client. -/
theorem forwardTrack.callFor_index (p : program) (id : Int) (flow : trackFlow)
    (frame : List Nat) (c : client) (hrtpl : p.rtpl ≠ none) (hrtcpl : p.rtcpl ≠ none)
    (hudp : c.streamProtocol = _STREAM_PROTOCOL_UDP)
    (h : ¬ (0 ≤ id ∧ id < c.streamTracks.length)) :
    forwardTrack.callFor p id flow frame c = Except.error forwardEnd.indexOutOfRange := by
  unfold forwardTrack.callFor
  have ht := sliceIndex_eq_none _ _ h
  obtain ⟨l1, hl1⟩ := Option.ne_none_iff_exists'.1 hrtpl
  obtain ⟨l2, hl2⟩ := Option.ne_none_iff_exists'.1 hrtcpl
  by_cases hflow : flow = _TRACK_FLOW_RTP
  · simp [hudp, hflow, hl1, ht]
  · simp [hudp, hflow, hl2, ht]

theorem stamp_attempts (outcome : Nat → Bool) (n : Nat) (xs : List (Nat × egressCall)) :
    (stamp outcome n xs).map (fun d => (d.dst, d.call)) = xs := by
  induction xs generalizing n with
  | nil => rfl
  | cons x xs ih => simp [stamp, ih]

theorem stamp_ok (outcome : Nat → Bool) (n : Nat) (xs : List (Nat × egressCall)) (i : Nat)
    (d : delivery) (h : (stamp outcome n xs)[i]? = some d) : d.ok = outcome (n + i) := by
  induction xs generalizing n i with
  | nil => simp [stamp] at h
  | cons x xs ih =>
    cases i with
    | zero =>
      simp only [stamp, List.getElem?_cons_zero, Option.some.injEq] at h
      subst h
      rfl
    | succ j =>
      simp only [stamp, List.getElem?_cons_succ] at h
      have := ih (n + 1) j h
      rw [this]
      congr 1
      omega

theorem forwardEnd.result_state (e : forwardEnd) (st : forwardState) :
    (e.result st).state = st := by
  cases e <;> rfl

theorem forwardEnd.result_isReturned (e : forwardEnd) (st : forwardState) :
    (e.result st).isReturned = decide (e = forwardEnd.returned) := by
  cases e <;> rfl

/-- The loop makes the planned calls, stamps each with its outcome, leaves the program
as it is, and ends as the plan ends. -/
theorem forwardTrack.loop_eq_plan (path : String) (id : Int) (flow : trackFlow)
    (frame : List Nat) (outcome : Nat → Bool) (cs : List client) (st : forwardState) :
    forwardTrack.loop path id flow frame outcome cs st =
      (forwardTrack.plan st.prog path id flow frame cs).2.result
        { prog := st.prog,
          log := st.log ++
            stamp outcome st.log.length (forwardTrack.plan st.prog path id flow frame cs).1 } := by
  induction cs generalizing st with
  | nil => simp [forwardTrack.loop, forwardTrack.plan, stamp, forwardEnd.result]
  | cons c rest ih =>
    unfold forwardTrack.loop forwardTrack.plan
    by_cases hel : c.path = path ∧ c.state = _CLIENT_STATE_PLAY
    · simp only [hel, and_self, if_true]
      by_cases hudp : c.streamProtocol = _STREAM_PROTOCOL_UDP
      · simp only [hudp, if_true, forwardTrack.callFor]
        by_cases hflow : flow = _TRACK_FLOW_RTP
        · subst hflow
          simp only [if_true]
          cases hl : st.prog.rtpl with
          | none => simp [stamp, forwardEnd.result]
          | some l =>
            cases hidx : sliceIndex c.streamTracks id with
            | none => simp [stamp, forwardEnd.result]
            | some t => simp [ih, forwardState.perform, stamp]
        · simp only [hflow, if_false]
          cases hl : st.prog.rtcpl with
          | none => simp [stamp, forwardEnd.result]
          | some l =>
            cases hidx : sliceIndex c.streamTracks id with
            | none => simp [stamp, forwardEnd.result]
            | some t => simp [ih, forwardState.perform, stamp]
      · simp [hudp, forwardTrack.callFor, ih, forwardState.perform, stamp]
    · simp only [hel, if_false]
      exact ih st

/-- With both datagram listeners set, the plan gets to the end of the list when every
eligible UDP client has the index in range. -/
theorem forwardTrack.plan_returned (p : program) (path : String) (id : Int) (flow : trackFlow)
    (frame : List Nat) (cs : List client) (hrtpl : p.rtpl ≠ none) (hrtcpl : p.rtcpl ≠ none)
    (hidx : ∀ c ∈ cs, c.path = path → c.state = _CLIENT_STATE_PLAY →
      c.streamProtocol = _STREAM_PROTOCOL_UDP → 0 ≤ id ∧ id < c.streamTracks.length) :
    (forwardTrack.plan p path id flow frame cs).2 = forwardEnd.returned := by
  induction cs with
  | nil => rfl
  | cons c rest ih =>
    have ihr := ih (fun c hc => hidx c (List.mem_cons_of_mem _ hc))
    unfold forwardTrack.plan
    by_cases hel : c.path = path ∧ c.state = _CLIENT_STATE_PLAY
    · obtain ⟨call, hcall⟩ := forwardTrack.callFor_ok p id flow frame c hrtpl hrtcpl
        (hidx c (List.mem_cons_self _ _) hel.1 hel.2)
      simp only [hel, and_self, if_true, hcall]
      exact ihr
    · simp only [hel, if_false]
      exact ihr

/-- With both datagram listeners set, the plan ends in the index panic when some eligible
UDP client has the index out of range. -/
theorem forwardTrack.plan_index (p : program) (path : String) (id : Int) (flow : trackFlow)
    (frame : List Nat) (cs : List client) (hrtpl : p.rtpl ≠ none) (hrtcpl : p.rtcpl ≠ none)
    (hbad : ∃ c ∈ cs, c.path = path ∧ c.state = _CLIENT_STATE_PLAY ∧
      c.streamProtocol = _STREAM_PROTOCOL_UDP ∧ ¬ (0 ≤ id ∧ id < c.streamTracks.length)) :
    (forwardTrack.plan p path id flow frame cs).2 = forwardEnd.indexOutOfRange := by
  induction cs with
  | nil =>
    obtain ⟨c, hc, -⟩ := hbad
    simp at hc
  | cons c rest ih =>
    unfold forwardTrack.plan
    by_cases hel : c.path = path ∧ c.state = _CLIENT_STATE_PLAY
    · simp only [hel, and_self, if_true]
      by_cases hc : c.streamProtocol = _STREAM_PROTOCOL_UDP ∧
          ¬ (0 ≤ id ∧ id < c.streamTracks.length)
      · rw [forwardTrack.callFor_index p id flow frame c hrtpl hrtcpl hc.1 hc.2]
      · obtain ⟨call, hcall⟩ := forwardTrack.callFor_ok p id flow frame c hrtpl hrtcpl
          (fun hudp => by
            by_contra hn
            exact hc ⟨hudp, hn⟩)
        simp only [hcall]
        apply ih
        obtain ⟨b, hb, hb1, hb2, hb3, hb4⟩ := hbad
        rcases List.mem_cons.1 hb with rfl | hb
        · exact absurd ⟨hb3, hb4⟩ hc
        · exact ⟨b, hb, hb1, hb2, hb3, hb4⟩
    · simp only [hel, if_false]
      apply ih
      obtain ⟨b, hb, hb1, hb2, hb3, hb4⟩ := hbad
      rcases List.mem_cons.1 hb with rfl | hb
      · exact absurd ⟨hb1, hb2⟩ hel
      · exact ⟨b, hb, hb1, hb2, hb3, hb4⟩

/-- Every planned call is the call for an eligible client of the list; the served clients
are an initial segment of the eligible ones, each served once, and all of them when the
plan gets to the end of the list. -/
theorem forwardTrack.plan_served (p : program) (path : String) (id : Int) (flow : trackFlow)
    (frame : List Nat) (cs : List client) :
    ∃ served, served <+: cs.filter (fun c => decide (c.path = path ∧ c.state = _CLIENT_STATE_PLAY)) ∧
      List.Forall₂ (fun (c : client) (x : Nat × egressCall) =>
          x.1 = c.ptr ∧ forwardTrack.callFor p id flow frame c = Except.ok x.2)
        served (forwardTrack.plan p path id flow frame cs).1 ∧
      ((forwardTrack.plan p path id flow frame cs).2 = forwardEnd.returned →
        served = cs.filter (fun c => decide (c.path = path ∧ c.state = _CLIENT_STATE_PLAY))) := by
  induction cs with
  | nil => exact ⟨[], by simp, by simp [forwardTrack.plan], by simp⟩
  | cons c rest ih =>
    obtain ⟨served, hpre, hall, hfull⟩ := ih
    unfold forwardTrack.plan
    by_cases hel : c.path = path ∧ c.state = _CLIENT_STATE_PLAY
    · have hf : List.filter (fun c => decide (c.path = path ∧ c.state = _CLIENT_STATE_PLAY)) (c :: rest)
          = c :: List.filter (fun c => decide (c.path = path ∧ c.state = _CLIENT_STATE_PLAY)) rest := by
        rw [List.filter_cons_of_pos]
        simpa using hel
      rw [hf]
      simp only [hel, and_self, if_true]
      cases hcall : forwardTrack.callFor p id flow frame c with
      | error e =>
        refine ⟨[], List.nil_prefix, by simp, ?_⟩
        intro he
        simp only at he
        subst he
        exfalso
        unfold forwardTrack.callFor at hcall
        split at hcall
        · split at hcall
          · split at hcall
            · simp at hcall
            · split at hcall <;> simp at hcall
          · split at hcall
            · simp at hcall
            · split at hcall <;> simp at hcall
        · simp at hcall
      | ok call =>
        refine ⟨c :: served, ?_, ?_, ?_⟩
        · exact (List.prefix_cons_inj c).2 hpre
        · exact List.Forall₂.cons ⟨rfl, hcall⟩ hall
        · intro h
          rw [hfull h]
    · have hf : List.filter (fun c => decide (c.path = path ∧ c.state = _CLIENT_STATE_PLAY)) (c :: rest)
          = List.filter (fun c => decide (c.path = path ∧ c.state = _CLIENT_STATE_PLAY)) rest := by
        rw [List.filter_cons_of_neg]
        simpa using hel
      rw [hf]
      simp only [hel, if_false]
      exact ⟨served, hpre, hall, hfull⟩

theorem program.forwardTrack_eq_plan (p : program) (path : String) (id : Int) (flow : trackFlow)
    (frame : List Nat) (outcome : Nat → Bool) :
    p.forwardTrack path id flow frame outcome =
      (forwardTrack.plan p path id flow frame p.clients).2.result
        { prog := p, log := stamp outcome 0 (forwardTrack.plan p path id flow frame p.clients).1 } := by
  unfold program.forwardTrack
  rw [forwardTrack.loop_eq_plan]
  simp

theorem program.forwardTrack_state (p : program) (path : String) (id : Int) (flow : trackFlow)
    (frame : List Nat) (outcome : Nat → Bool) :
    (p.forwardTrack path id flow frame outcome).state =
      { prog := p, log := stamp outcome 0 (forwardTrack.plan p path id flow frame p.clients).1 } := by
  rw [program.forwardTrack_eq_plan, forwardEnd.result_state]

theorem program.forwardTrack_isReturned (p : program) (path : String) (id : Int)
    (flow : trackFlow) (frame : List Nat) (outcome : Nat → Bool) :
    (p.forwardTrack path id flow frame outcome).isReturned =
      decide ((forwardTrack.plan p path id flow frame p.clients).2 = forwardEnd.returned) := by
  rw [program.forwardTrack_eq_plan, forwardEnd.result_isReturned]

/-- The log of a call, read against the clients: the served clients are an initial
segment of the eligible ones (all of them when the call returns), and the log has one
entry for each, in order, holding the call for that client. -/
theorem program.forwardTrack_served (p : program) (path : String) (id : Int) (flow : trackFlow)
    (frame : List Nat) (outcome : Nat → Bool) :
    ∃ served, served <+: p.clients.filter (forwardTrack.eligible path) ∧
      List.Forall₂ (fun (c : client) (d : delivery) =>
          d.dst = c.ptr ∧ forwardTrack.callFor p id flow frame c = Except.ok d.call)
        served (p.forwardTrack path id flow frame outcome).state.log ∧
      ((p.forwardTrack path id flow frame outcome).isReturned = true →
        served = p.clients.filter (forwardTrack.eligible path)) := by
  obtain ⟨served, hpre, hall, hfull⟩ := forwardTrack.plan_served p path id flow frame p.clients
  refine ⟨served, hpre, ?_, ?_⟩
  · rw [program.forwardTrack_state]
    have := stamp_attempts outcome 0 (forwardTrack.plan p path id flow frame p.clients).1
    rw [← this, List.forall₂_map_right_iff] at hall
    exact hall
  · rw [program.forwardTrack_isReturned]
    intro h
    exact hfull (by simpa using h)

theorem forall₂_map_eq {α β γ : Type} (R : α → β → Prop) (f : α → γ) (g : β → γ)
    (h : ∀ a b, R a b → g b = f a) (l₁ : List α) (l₂ : List β) (hall : List.Forall₂ R l₁ l₂) :
    l₂.map g = l₁.map f := by
  induction hall with
  | nil => rfl
  | cons hab _ ih => simp [h _ _ hab, ih]

theorem count_ptr_of_nodup (cs sub : List client) (hnd : (cs.map client.ptr).Nodup)
    (hsub : sub.Sublist cs) (c : client) (hc : c ∈ cs) :
    List.count c.ptr (sub.map client.ptr) = if c ∈ sub then 1 else 0 := by
  have hsubnd : (sub.map client.ptr).Nodup := List.Nodup.sublist (hsub.map _) hnd
  split
  · rename_i hmem
    exact List.count_eq_one_of_mem hsubnd (List.mem_map_of_mem _ hmem)
  · rename_i hmem
    rw [List.count_eq_zero]
    intro hin
    obtain ⟨c2, hc2, hptr⟩ := List.mem_map.1 hin
    have : c2 = c := List.inj_on_of_nodup_map hnd (hsub.subset hc2) hc hptr
    exact hmem (this ▸ hc2)

/-- When the index is in range for a UDP client, the loop body does not end in the index
panic, whatever the listeners are. -/
theorem forwardTrack.callFor_not_index (p : program) (id : Int) (flow : trackFlow)
    (frame : List Nat) (c : client)
    (h : c.streamProtocol = _STREAM_PROTOCOL_UDP → 0 ≤ id ∧ id < c.streamTracks.length) :
    forwardTrack.callFor p id flow frame c ≠ Except.error forwardEnd.indexOutOfRange := by
  unfold forwardTrack.callFor
  by_cases hudp : c.streamProtocol = _STREAM_PROTOCOL_UDP
  · obtain ⟨t, ht⟩ := sliceIndex_eq_some _ _ (h hudp)
    by_cases hflow : flow = _TRACK_FLOW_RTP
    · cases hl : p.rtpl <;> simp [hudp, hflow, hl, ht]
    · cases hl : p.rtcpl <;> simp [hudp, hflow, hl, ht]
  · simp [hudp]

/-- When every eligible UDP client has the index in range, the plan does not end in the
index panic, whatever the listeners are. -/
theorem forwardTrack.plan_not_index (p : program) (path : String) (id : Int) (flow : trackFlow)
    (frame : List Nat) (cs : List client)
    (hidx : ∀ c ∈ cs, c.path = path → c.state = _CLIENT_STATE_PLAY →
      c.streamProtocol = _STREAM_PROTOCOL_UDP → 0 ≤ id ∧ id < c.streamTracks.length) :
    (forwardTrack.plan p path id flow frame cs).2 ≠ forwardEnd.indexOutOfRange := by
  induction cs with
  | nil => simp [forwardTrack.plan]
  | cons c rest ih =>
    have ihr := ih (fun c hc => hidx c (List.mem_cons_of_mem _ hc))
    unfold forwardTrack.plan
    by_cases hel : c.path = path ∧ c.state = _CLIENT_STATE_PLAY
    · simp only [hel, and_self, if_true]
      have hni := forwardTrack.callFor_not_index p id flow frame c
        (hidx c (List.mem_cons_self _ _) hel.1 hel.2)
      cases hcall : forwardTrack.callFor p id flow frame c with
      | error e =>
        intro he
        simp only at he
        subst he
        exact hni hcall
      | ok call => exact ihr
    · simp only [hel, if_false]
      exact ihr

/-! ## `forwardTrack`: who is served -/

/-- C4, as stated, fails: on a running registry (listeners set) with a playing UDP session
on "cam1" that has set up one track, a call for track 1 panics on the index expression
and the session, although it has the path and is playing, receives no delivery. -/
theorem forwardTrack_delivery_iff_counterexample :
    ((registryWith [udpPlayer]).rtpl ≠ none ∧ (registryWith [udpPlayer]).rtcpl ≠ none) ∧
    (registryWith [udpPlayer]).forwardTrack "cam1" 1 _TRACK_FLOW_RTP [1, 2, 3] (fun _ => true)
      = forwardResult.indexOutOfRange { prog := registryWith [udpPlayer], log := [] } ∧
    ∃ c ∈ (registryWith [udpPlayer]).clients,
      (c.path = "cam1" ∧ c.state = _CLIENT_STATE_PLAY) ∧
      ¬ ∃ d ∈ ((registryWith [udpPlayer]).forwardTrack "cam1" 1 _TRACK_FLOW_RTP [1, 2, 3]
          (fun _ => true)).state.log, d.dst = c.ptr := by
  refine ⟨⟨by decide, by decide⟩, rfl, udpPlayer, List.mem_singleton.2 rfl, ⟨rfl, rfl⟩, ?_⟩
  rintro ⟨d, hd, -⟩
  have hlog : ((registryWith [udpPlayer]).forwardTrack "cam1" 1 _TRACK_FLOW_RTP [1, 2, 3]
      (fun _ => true)).state.log = [] := rfl
  rw [hlog] at hd
  simp at hd

/-- C4, amended: with distinct session identities, in every call a delivery is made to a
live session only if it has the path and is playing (so never to a session in a publisher
state) and at most once; and on a program whose datagram listeners are set, when every
playing UDP session on the path has the track index within its track list, the call
returns and a live session receives a delivery if and only if it has the path and is
playing, exactly one delivery then. -/
theorem forwardTrack_delivery_iff (p : program) (path : String) (id : Int) (flow : trackFlow)
    (frame : List Nat) (outcome : Nat → Bool)
    (hptr : (p.clients.map client.ptr).Nodup) :
    (∀ c ∈ p.clients,
      ((∃ d ∈ (p.forwardTrack path id flow frame outcome).state.log, d.dst = c.ptr) →
        c.path = path ∧ c.state = _CLIENT_STATE_PLAY) ∧
      (c.state.isPublisher = true →
        ∀ d ∈ (p.forwardTrack path id flow frame outcome).state.log, d.dst ≠ c.ptr) ∧
      ((p.forwardTrack path id flow frame outcome).state.log.filter
          (fun d => decide (d.dst = c.ptr))).length ≤ 1) ∧
    (p.rtpl ≠ none → p.rtcpl ≠ none →
      (∀ c ∈ p.clients, c.path = path → c.state = _CLIENT_STATE_PLAY →
        c.streamProtocol = _STREAM_PROTOCOL_UDP → 0 ≤ id ∧ id < c.streamTracks.length) →
      (p.forwardTrack path id flow frame outcome).isReturned = true ∧
      ∀ c ∈ p.clients,
        ((∃ d ∈ (p.forwardTrack path id flow frame outcome).state.log, d.dst = c.ptr) ↔
          (c.path = path ∧ c.state = _CLIENT_STATE_PLAY)) ∧
        ((p.forwardTrack path id flow frame outcome).state.log.filter
            (fun d => decide (d.dst = c.ptr))).length =
          if c.path = path ∧ c.state = _CLIENT_STATE_PLAY then 1 else 0) := by
  obtain ⟨served, hpre, hall, hfull⟩ := program.forwardTrack_served p path id flow frame outcome
  have hsub : served.Sublist p.clients := hpre.sublist.trans (List.filter_sublist _)
  have hdst : (p.forwardTrack path id flow frame outcome).state.log.map delivery.dst
      = served.map client.ptr :=
    forall₂_map_eq _ client.ptr delivery.dst (fun _ _ h => h.1) _ _ hall
  have hcount : ∀ c ∈ p.clients,
      ((p.forwardTrack path id flow frame outcome).state.log.filter
        (fun d => decide (d.dst = c.ptr))).length = if c ∈ served then 1 else 0 := by
    intro c hc
    rw [← count_ptr_of_nodup p.clients served hptr hsub c hc, ← hdst, List.count_eq_countP,
      List.countP_map, List.countP_eq_length_filter]
    congr 2
  have hmem : ∀ c ∈ p.clients,
      (∃ d ∈ (p.forwardTrack path id flow frame outcome).state.log, d.dst = c.ptr) ↔ c ∈ served := by
    intro c hc
    have h1 := hcount c hc
    constructor
    · rintro ⟨d, hd, hdc⟩
      by_contra hns
      rw [if_neg hns, List.length_eq_zero, List.filter_eq_nil_iff] at h1
      exact h1 d hd (by simpa using hdc)
    · intro hs
      rw [if_pos hs] at h1
      have hne : List.filter (fun d => decide (d.dst = c.ptr))
          (p.forwardTrack path id flow frame outcome).state.log ≠ [] := by
        intro h0
        rw [h0] at h1
        simp at h1
      obtain ⟨d, hd⟩ := List.exists_mem_of_ne_nil _ hne
      rw [List.mem_filter] at hd
      exact ⟨d, hd.1, by simpa using hd.2⟩
  have helig : ∀ c ∈ served, c.path = path ∧ c.state = _CLIENT_STATE_PLAY := by
    intro c hc
    have := (List.mem_filter.1 (hpre.subset hc)).2
    simpa [forwardTrack.eligible] using this
  refine ⟨fun c hc => ⟨fun h => helig c ((hmem c hc).1 h), fun hpub d hd hdc => ?_, ?_⟩,
    fun hrtpl hrtcpl hidx => ?_⟩
  · have hplay := (helig c ((hmem c hc).1 ⟨d, hd, hdc⟩)).2
    rw [hplay] at hpub
    simp [_CLIENT_STATE_PLAY, clientState.isPublisher] at hpub
  · rw [hcount c hc]
    split <;> omega
  · have hret : (p.forwardTrack path id flow frame outcome).isReturned = true := by
      rw [program.forwardTrack_isReturned,
        forwardTrack.plan_returned p path id flow frame p.clients hrtpl hrtcpl hidx]
      rfl
    have hserved := hfull hret
    have hs : ∀ c ∈ p.clients, c ∈ served ↔ (c.path = path ∧ c.state = _CLIENT_STATE_PLAY) := by
      intro c hc
      rw [hserved, List.mem_filter]
      simp [forwardTrack.eligible, hc]
    refine ⟨hret, fun c hc => ⟨(hmem c hc).trans (hs c hc), ?_⟩⟩
    rw [hcount c hc]
    simp only [hs c hc]

/-- C4 amended, at a running registry with the publisher of "cam1", a TCP player and a UDP
player with one track: for track 0 the call returns and serves exactly the two players. -/
theorem forwardTrack_delivery_iff_witness :
    ((registryWith [tcpPublisher, tcpPlayer, udpPlayer]).clients.map client.ptr).Nodup ∧
    ((registryWith [tcpPublisher, tcpPlayer, udpPlayer]).rtpl ≠ none ∧
      (registryWith [tcpPublisher, tcpPlayer, udpPlayer]).rtcpl ≠ none) ∧
    (∀ c ∈ (registryWith [tcpPublisher, tcpPlayer, udpPlayer]).clients,
      c.path = "cam1" → c.state = _CLIENT_STATE_PLAY →
      c.streamProtocol = _STREAM_PROTOCOL_UDP → (0 : Int) ≤ 0 ∧ (0 : Int) < c.streamTracks.length) ∧
    ((registryWith [tcpPublisher, tcpPlayer, udpPlayer]).forwardTrack "cam1" 0 _TRACK_FLOW_RTP
      [1, 2, 3] (fun _ => true)).isReturned = true ∧
    ∀ c ∈ (registryWith [tcpPublisher, tcpPlayer, udpPlayer]).clients,
      ((∃ d ∈ ((registryWith [tcpPublisher, tcpPlayer, udpPlayer]).forwardTrack "cam1" 0
          _TRACK_FLOW_RTP [1, 2, 3] (fun _ => true)).state.log, d.dst = c.ptr) ↔
        (c.path = "cam1" ∧ c.state = _CLIENT_STATE_PLAY)) ∧
      (((registryWith [tcpPublisher, tcpPlayer, udpPlayer]).forwardTrack "cam1" 0
          _TRACK_FLOW_RTP [1, 2, 3] (fun _ => true)).state.log.filter
            (fun d => decide (d.dst = c.ptr))).length =
        if c.path = "cam1" ∧ c.state = _CLIENT_STATE_PLAY then 1 else 0 :=
  have hptr : ((registryWith [tcpPublisher, tcpPlayer, udpPlayer]).clients.map client.ptr).Nodup := by
    decide
  have hrtpl : (registryWith [tcpPublisher, tcpPlayer, udpPlayer]).rtpl ≠ none := by decide
  have hrtcpl : (registryWith [tcpPublisher, tcpPlayer, udpPlayer]).rtcpl ≠ none := by decide
  have hidx : ∀ c ∈ (registryWith [tcpPublisher, tcpPlayer, udpPlayer]).clients,
      c.path = "cam1" → c.state = _CLIENT_STATE_PLAY →
      c.streamProtocol = _STREAM_PROTOCOL_UDP → (0 : Int) ≤ 0 ∧ (0 : Int) < c.streamTracks.length := by
    decide
  ⟨hptr, ⟨hrtpl, hrtcpl⟩, hidx,
    (forwardTrack_delivery_iff (registryWith [tcpPublisher, tcpPlayer, udpPlayer])
      "cam1" 0 _TRACK_FLOW_RTP [1, 2, 3] (fun _ => true) hptr).2 hrtpl hrtcpl hidx⟩

/-! ## `forwardTrack`: failed sends -/

/-- C5: whatever outcomes the individual sends and writes have, `forwardTrack` attempts
the same deliveries, to the same sessions in the same order, as when every send succeeds
(the log records each outcome as assigned); a failed send changes neither whether the
call returns nor the program, so no error reaches the caller. -/
theorem forwardTrack_failure_isolation (p : program) (path : String) (id : Int)
    (flow : trackFlow) (frame : List Nat) (outcome : Nat → Bool) :
    (p.forwardTrack path id flow frame outcome).state.log.map (fun d => (d.dst, d.call)) =
      (p.forwardTrack path id flow frame (fun _ => true)).state.log.map
        (fun d => (d.dst, d.call)) ∧
    (p.forwardTrack path id flow frame outcome).isReturned =
      (p.forwardTrack path id flow frame (fun _ => true)).isReturned ∧
    (p.forwardTrack path id flow frame outcome).state.prog =
      (p.forwardTrack path id flow frame (fun _ => true)).state.prog ∧
    (∀ i d, (p.forwardTrack path id flow frame outcome).state.log[i]? = some d →
      d.ok = outcome i) := by
  refine ⟨?_, ?_, ?_, ?_⟩
  · simp only [program.forwardTrack_state, stamp_attempts]
  · simp only [program.forwardTrack_isReturned]
  · simp only [program.forwardTrack_state]
  · intro i d h
    rw [program.forwardTrack_state] at h
    simpa using stamp_ok outcome 0 _ i d h

/-- C6, as stated, fails: the write to the TCP player fails, and after `forwardTrack` has
returned the player is still in the live-session set (and the publisher index is as it
was). -/
theorem forwardTrack_teardown_counterexample :
    ({ registryWith [tcpPublisher, tcpPlayer] with publishers := [("cam1", 1)] }.forwardTrack
        "cam1" 0 _TRACK_FLOW_RTP [1, 2, 3] (fun _ => false)).isReturned = true ∧
    ∃ d ∈ ({ registryWith [tcpPublisher, tcpPlayer] with publishers := [("cam1", 1)] }.forwardTrack
        "cam1" 0 _TRACK_FLOW_RTP [1, 2, 3] (fun _ => false)).state.log,
      d.ok = false ∧ d.dst = tcpPlayer.ptr ∧
      tcpPlayer ∈ ({ registryWith [tcpPublisher, tcpPlayer] with
        publishers := [("cam1", 1)] }.forwardTrack
          "cam1" 0 _TRACK_FLOW_RTP [1, 2, 3] (fun _ => false)).state.prog.clients := by
  refine ⟨rfl, ⟨2, egressCall.WriteInterleavedFrame 2 0 [1, 2, 3], false⟩, ?_, rfl, rfl, ?_⟩
  · have hlog : ({ registryWith [tcpPublisher, tcpPlayer] with
        publishers := [("cam1", 1)] }.forwardTrack
          "cam1" 0 _TRACK_FLOW_RTP [1, 2, 3] (fun _ => false)).state.log
        = [⟨2, egressCall.WriteInterleavedFrame 2 0 [1, 2, 3], false⟩] := rfl
    rw [hlog]
    exact List.mem_singleton.2 rfl
  · have hcl : ({ registryWith [tcpPublisher, tcpPlayer] with
        publishers := [("cam1", 1)] }.forwardTrack
          "cam1" 0 _TRACK_FLOW_RTP [1, 2, 3] (fun _ => false)).state.prog.clients
        = [tcpPublisher, tcpPlayer] := rfl
    rw [hcl]
    simp

/-- C6, amended: `forwardTrack` tears no session down. Whatever the outcomes of the sends
and writes, the program after the call is the program before it, with the same
live-session set and the same publisher index, so every session to which a delivery was
attempted, failed or not, is still registered. -/
theorem forwardTrack_registry_unchanged (p : program) (path : String) (id : Int)
    (flow : trackFlow) (frame : List Nat) (outcome : Nat → Bool) :
    (p.forwardTrack path id flow frame outcome).state.prog = p ∧
    (p.forwardTrack path id flow frame outcome).state.prog.clients = p.clients ∧
    (p.forwardTrack path id flow frame outcome).state.prog.publishers = p.publishers ∧
    ∀ d ∈ (p.forwardTrack path id flow frame outcome).state.log,
      ∃ c ∈ (p.forwardTrack path id flow frame outcome).state.prog.clients, c.ptr = d.dst := by
  have hprog : (p.forwardTrack path id flow frame outcome).state.prog = p := by
    rw [program.forwardTrack_state]
  refine ⟨hprog, by rw [hprog], by rw [hprog], fun d hd => ?_⟩
  rw [hprog]
  obtain ⟨served, hpre, hall, -⟩ := program.forwardTrack_served p path id flow frame outcome
  have hdst : (p.forwardTrack path id flow frame outcome).state.log.map delivery.dst
      = served.map client.ptr :=
    forall₂_map_eq _ client.ptr delivery.dst (fun _ _ h => h.1) _ _ hall
  have : d.dst ∈ served.map client.ptr := by
    rw [← hdst]
    exact List.mem_map_of_mem _ hd
  obtain ⟨c, hc, hcd⟩ := List.mem_map.1 this
  exact ⟨c, (List.filter_sublist _).subset (hpre.subset hc), hcd⟩

/-! ## Interleaved channels -/

/-- C7: for a track index `id ≥ 0` and either flow, decoding the channel id
`2 * id + flow` by `channel / 2` and `channel mod 2` gives back `(id, flow)`; the
encoding is injective; and the id is within `0..255` exactly when `id ≤ 127`. -/
theorem trackToInterleavedChannel_roundtrip (id : Int) (flow : trackFlow) (hid : 0 ≤ id)
    (hflow : flow = _TRACK_FLOW_RTP ∨ flow = _TRACK_FLOW_RTCP) :
    interleavedChannelToTrack (trackToInterleavedChannel id flow) = (id, flow) ∧
    (∀ (id2 : Int) (flow2 : trackFlow), (flow2 = _TRACK_FLOW_RTP ∨ flow2 = _TRACK_FLOW_RTCP) →
      trackToInterleavedChannel id2 flow2 = trackToInterleavedChannel id flow →
      id2 = id ∧ flow2 = flow) ∧
    ((0 ≤ trackToInterleavedChannel id flow ∧ trackToInterleavedChannel id flow ≤ 255) ↔
      id ≤ 127) := by
  refine ⟨?_, ?_, ?_⟩
  · have hch : 0 ≤ trackToInterleavedChannel id flow := by
      unfold trackToInterleavedChannel
      split <;> omega
    unfold interleavedChannelToTrack
    rw [Int.tdiv_eq_ediv hch (by decide), Int.tmod_eq_emod hch (by decide)]
    rcases hflow with h | h
    · subst h
      simp only [trackToInterleavedChannel, if_true, Prod.mk.injEq, _TRACK_FLOW_RTP]
      refine ⟨by omega, ?_⟩
      change @Eq Int ((2 * id + 0) % 2) 0
      omega
    · subst h
      simp only [trackToInterleavedChannel, _TRACK_FLOW_RTP, _TRACK_FLOW_RTCP, Prod.mk.injEq]
      norm_num
      refine ⟨by omega, ?_⟩
      change @Eq Int ((2 * id + 1) % 2) 1
      omega
  · intro id2 flow2 hflow2 heq
    simp only [trackToInterleavedChannel, _TRACK_FLOW_RTP, _TRACK_FLOW_RTCP] at *
    rcases hflow with h | h <;> rcases hflow2 with h2 | h2 <;> subst h <;> subst h2 <;>
      norm_num at heq ⊢ <;> omega
  · simp only [trackToInterleavedChannel, _TRACK_FLOW_RTP, _TRACK_FLOW_RTCP] at *
    rcases hflow with h | h <;> subst h <;> norm_num <;> omega

/-- C7 at track 127 with the RTCP flow: channel 255, the last one-byte id. -/
theorem trackToInterleavedChannel_roundtrip_witness :
    ((0 : Int) ≤ 127 ∧ (_TRACK_FLOW_RTCP = _TRACK_FLOW_RTP ∨ _TRACK_FLOW_RTCP = _TRACK_FLOW_RTCP)) ∧
    trackToInterleavedChannel 127 _TRACK_FLOW_RTCP = 255 ∧
    interleavedChannelToTrack (trackToInterleavedChannel 127 _TRACK_FLOW_RTCP)
      = (127, _TRACK_FLOW_RTCP) :=
  ⟨⟨by decide, Or.inr rfl⟩, by decide,
    (trackToInterleavedChannel_roundtrip 127 _TRACK_FLOW_RTCP (by decide) (Or.inr rfl)).1⟩


/-! ## `forwardTrack`: the egress chosen, and index safety -/

/-- C9, as stated, fails: on a running registry (listeners set) a playing UDP session
with one track is visited first, the index expression for track 1 panics, and the playing
TCP session on the same path gets no interleaved frame; nothing at all is sent. -/
theorem forwardTrack_egress_by_transport_counterexample :
    ((registryWith [udpPlayer, tcpPlayer]).rtpl ≠ none ∧
      (registryWith [udpPlayer, tcpPlayer]).rtcpl ≠ none) ∧
    tcpPlayer ∈ (registryWith [udpPlayer, tcpPlayer]).clients ∧
    (tcpPlayer.path = "cam1" ∧ tcpPlayer.state = _CLIENT_STATE_PLAY ∧
      tcpPlayer.streamProtocol ≠ _STREAM_PROTOCOL_UDP) ∧
    (registryWith [udpPlayer, tcpPlayer]).forwardTrack "cam1" 1 _TRACK_FLOW_RTP
      [1, 2, 3] (fun _ => true)
      = forwardResult.indexOutOfRange { prog := registryWith [udpPlayer, tcpPlayer], log := [] } :=
  ⟨⟨by decide, by decide⟩, by decide, ⟨rfl, rfl, by decide⟩, rfl⟩

/-- C9, amended: on a program whose datagram listeners are set, when every playing UDP
session on the path has the track index within its track list, `forwardTrack` returns
having made exactly one call for each session that has the path and is playing, in
visiting order, with the frame passed on unchanged: for a UDP session a `WriteTo` on the
RTP listener's socket to the session's ip and the track's `rtpPort` when the flow is RTP,
on the RTCP listener's socket to the track's `rtcpPort` otherwise; for any other session
a `WriteInterleavedFrame` on the session's own connection with channel
`trackToInterleavedChannel id flow`. -/
theorem forwardTrack_egress_by_transport (p : program) (path : String) (id : Int)
    (flow : trackFlow) (frame : List Nat) (outcome : Nat → Bool)
    (hrtpl : p.rtpl ≠ none) (hrtcpl : p.rtcpl ≠ none)
    (hidx : ∀ c ∈ p.clients, c.path = path → c.state = _CLIENT_STATE_PLAY →
      c.streamProtocol = _STREAM_PROTOCOL_UDP → 0 ≤ id ∧ id < c.streamTracks.length) :
    ∃ log, p.forwardTrack path id flow frame outcome
        = forwardResult.returned { prog := p, log := log } ∧
      List.Forall₂ (fun (c : client) (d : delivery) =>
          d.dst = c.ptr ∧
          (c.streamProtocol = _STREAM_PROTOCOL_UDP → flow = _TRACK_FLOW_RTP →
            ∃ t, sliceIndex c.streamTracks id = some t ∧
              d.call = egressCall.WriteTo udpSocket.rtpl frame c.ip t.rtpPort) ∧
          (c.streamProtocol = _STREAM_PROTOCOL_UDP → flow ≠ _TRACK_FLOW_RTP →
            ∃ t, sliceIndex c.streamTracks id = some t ∧
              d.call = egressCall.WriteTo udpSocket.rtcpl frame c.ip t.rtcpPort) ∧
          (c.streamProtocol ≠ _STREAM_PROTOCOL_UDP →
            d.call = egressCall.WriteInterleavedFrame c.ptr
              (trackToInterleavedChannel id flow) frame))
        (p.clients.filter fun c => decide (c.path = path ∧ c.state = _CLIENT_STATE_PLAY))
        log := by
  have hret : (forwardTrack.plan p path id flow frame p.clients).2 = forwardEnd.returned :=
    forwardTrack.plan_returned p path id flow frame p.clients hrtpl hrtcpl hidx
  obtain ⟨served, hpre, hall, hfull⟩ := program.forwardTrack_served p path id flow frame outcome
  have hserved := hfull (by rw [program.forwardTrack_isReturned, hret]; rfl)
  rw [program.forwardTrack_state] at hall
  refine ⟨_, by rw [program.forwardTrack_eq_plan, hret]; rfl, ?_⟩
  rw [hserved] at hall hpre
  have hin : ∀ c ∈ p.clients.filter (forwardTrack.eligible path),
      c.streamProtocol = _STREAM_PROTOCOL_UDP → 0 ≤ id ∧ id < c.streamTracks.length := by
    intro c hc
    have h1 := List.mem_filter.1 hc
    have h2 : c.path = path ∧ c.state = _CLIENT_STATE_PLAY := by
      simpa [forwardTrack.eligible] using h1.2
    exact hidx c h1.1 h2.1 h2.2
  obtain ⟨l1, hl1⟩ := Option.ne_none_iff_exists'.1 hrtpl
  obtain ⟨l2, hl2⟩ := Option.ne_none_iff_exists'.1 hrtcpl
  refine List.Forall₂.imp (fun c d h => ?_) hall
  obtain ⟨hdst, hcall⟩ := h
  refine ⟨hdst, fun hudp hflow => ?_, fun hudp hflow => ?_, fun hudp => ?_⟩
  · cases ht : sliceIndex c.streamTracks id with
    | none => simp [forwardTrack.callFor, hudp, hflow, hl1, ht] at hcall
    | some t =>
      simp only [forwardTrack.callFor, hudp, hflow, hl1, ht, if_true, Except.ok.injEq] at hcall
      exact ⟨t, rfl, hcall.symm⟩
  · cases ht : sliceIndex c.streamTracks id with
    | none => simp [forwardTrack.callFor, hudp, hflow, hl2, ht] at hcall
    | some t =>
      simp only [forwardTrack.callFor, hudp, hflow, hl2, ht, if_true, if_false,
        Except.ok.injEq] at hcall
      exact ⟨t, rfl, hcall.symm⟩
  · simp only [forwardTrack.callFor, hudp, if_false, Except.ok.injEq] at hcall
    exact hcall.symm

/-- C9 amended, at the scenario on a running registry: the publisher of "cam1" forwards
the payload 01 02 03 of (track 0, RTP); the TCP player gets it, unchanged, on interleaved
channel 0 of its own connection, the UDP player gets it as a datagram on the RTP
listener's socket to its ip and the RTP port 5000 of its track 0, and nothing else is
sent. -/
theorem forwardTrack_egress_by_transport_witness :
    ((registryWith [tcpPublisher, tcpPlayer, udpPlayer]).rtpl ≠ none ∧
      (registryWith [tcpPublisher, tcpPlayer, udpPlayer]).rtcpl ≠ none) ∧
    (∀ c ∈ (registryWith [tcpPublisher, tcpPlayer, udpPlayer]).clients,
      c.path = "cam1" → c.state = _CLIENT_STATE_PLAY →
      c.streamProtocol = _STREAM_PROTOCOL_UDP → (0 : Int) ≤ 0 ∧ (0 : Int) < c.streamTracks.length) ∧
    ∃ d1 d2, (registryWith [tcpPublisher, tcpPlayer, udpPlayer]).forwardTrack "cam1" 0
        _TRACK_FLOW_RTP [1, 2, 3] (fun _ => true)
        = forwardResult.returned
          { prog := registryWith [tcpPublisher, tcpPlayer, udpPlayer], log := [d1, d2] } ∧
      d1.dst = tcpPlayer.ptr ∧
      d1.call = egressCall.WriteInterleavedFrame tcpPlayer.ptr 0 [1, 2, 3] ∧
      d2.dst = udpPlayer.ptr ∧
      d2.call = egressCall.WriteTo udpSocket.rtpl [1, 2, 3] udpPlayer.ip 5000 := by
  have hrtpl : (registryWith [tcpPublisher, tcpPlayer, udpPlayer]).rtpl ≠ none := by decide
  have hrtcpl : (registryWith [tcpPublisher, tcpPlayer, udpPlayer]).rtcpl ≠ none := by decide
  have hidx : ∀ c ∈ (registryWith [tcpPublisher, tcpPlayer, udpPlayer]).clients,
      c.path = "cam1" → c.state = _CLIENT_STATE_PLAY →
      c.streamProtocol = _STREAM_PROTOCOL_UDP → (0 : Int) ≤ 0 ∧ (0 : Int) < c.streamTracks.length := by
    decide
  obtain ⟨log, hres, hall⟩ := forwardTrack_egress_by_transport
    (registryWith [tcpPublisher, tcpPlayer, udpPlayer]) "cam1" 0 _TRACK_FLOW_RTP [1, 2, 3]
    (fun _ => true) hrtpl hrtcpl hidx
  have hf : (registryWith [tcpPublisher, tcpPlayer, udpPlayer]).clients.filter
      (fun c => decide (c.path = "cam1" ∧ c.state = _CLIENT_STATE_PLAY))
      = [tcpPlayer, udpPlayer] := by
    decide
  rw [hf] at hall
  cases hall with
  | cons h1 htl =>
    cases htl with
    | cons h2 htl2 =>
      cases htl2
      obtain ⟨t, ht, hcall⟩ := h2.2.1 rfl rfl
      have htv : t = { rtpPort := 5000, rtcpPort := 5001 } := by
        have : sliceIndex udpPlayer.streamTracks 0 = some { rtpPort := 5000, rtcpPort := 5001 } := by
          decide
        rw [this] at ht
        exact (Option.some.inj ht).symm
      subst htv
      exact ⟨⟨hrtpl, hrtcpl⟩, hidx, _, _, hres, h1.1, h1.2.2.2 (by decide), h2.1, hcall⟩

/-- C10: when every session that has the path, is playing and uses UDP has
`0 ≤ id < len(streamTracks)`, `forwardTrack` never ends in the index-out-of-range panic,
and on a program whose datagram listeners are set it returns; the track lists of TCP
sessions and of sessions that are not eligible play no part. When some such session has
the index out of range, the index expression panics. -/
theorem forwardTrack_index_safety (p : program) (path : String) (id : Int)
    (flow : trackFlow) (frame : List Nat) (outcome : Nat → Bool) :
    ((∀ c ∈ p.clients, c.path = path → c.state = _CLIENT_STATE_PLAY →
        c.streamProtocol = _STREAM_PROTOCOL_UDP → 0 ≤ id ∧ id < c.streamTracks.length) →
      (∀ st, p.forwardTrack path id flow frame outcome ≠ forwardResult.indexOutOfRange st) ∧
      (p.rtpl ≠ none → p.rtcpl ≠ none →
        ∃ st, p.forwardTrack path id flow frame outcome = forwardResult.returned st)) ∧
    (p.rtpl ≠ none → p.rtcpl ≠ none →
      (∃ c ∈ p.clients, c.path = path ∧ c.state = _CLIENT_STATE_PLAY ∧
        c.streamProtocol = _STREAM_PROTOCOL_UDP ∧ ¬ (0 ≤ id ∧ id < c.streamTracks.length)) →
      ∃ st, p.forwardTrack path id flow frame outcome = forwardResult.indexOutOfRange st) := by
  refine ⟨fun hidx => ⟨fun st hst => ?_, fun hrtpl hrtcpl => ?_⟩, fun hrtpl hrtcpl hbad => ?_⟩
  · have hni := forwardTrack.plan_not_index p path id flow frame p.clients hidx
    rw [program.forwardTrack_eq_plan] at hst
    cases he : (forwardTrack.plan p path id flow frame p.clients).2 with
    | returned => rw [he] at hst; simp [forwardEnd.result] at hst
    | indexOutOfRange => exact hni he
    | nilPointer => rw [he] at hst; simp [forwardEnd.result] at hst
  · have hret := forwardTrack.plan_returned p path id flow frame p.clients hrtpl hrtcpl hidx
    exact ⟨_, by rw [program.forwardTrack_eq_plan, hret]; rfl⟩
  · have hend := forwardTrack.plan_index p path id flow frame p.clients hrtpl hrtcpl hbad
    exact ⟨_, by rw [program.forwardTrack_eq_plan, hend]; rfl⟩

/-- C10 at two running registries: with a TCP player that has no track and a UDP player
that has one, track 0 is forwarded and the call returns; with the same UDP player, track 1
makes the call panic on the index. -/
theorem forwardTrack_index_safety_witness :
    (∃ st, (registryWith [tcpPublisher, tcpPlayer, udpPlayer]).forwardTrack "cam1" 0
      _TRACK_FLOW_RTCP [1, 2, 3] (fun _ => true) = forwardResult.returned st) ∧
    (∃ st, (registryWith [tcpPublisher, udpPlayer]).forwardTrack "cam1" 1 _TRACK_FLOW_RTCP
      [1, 2, 3] (fun _ => true) = forwardResult.indexOutOfRange st) :=
  ⟨((forwardTrack_index_safety (registryWith [tcpPublisher, tcpPlayer, udpPlayer]) "cam1" 0
      _TRACK_FLOW_RTCP [1, 2, 3] (fun _ => true)).1 (by decide)).2 (by decide) (by decide),
    (forwardTrack_index_safety (registryWith [tcpPublisher, udpPlayer]) "cam1" 1 _TRACK_FLOW_RTCP
      [1, 2, 3] (fun _ => true)).2 (by decide) (by decide)
      ⟨udpPlayer, by decide, rfl, rfl, rfl, by decide⟩⟩
